import Mathlib

/-!
Verification of the AgentJobs task-lifecycle core (models / storage / manager /
webhooks) against its natural-language specification.

The Python source is shallowly embedded: pydantic models become structures,
timestamps become natural numbers (seconds), the one-file-per-task store
becomes an association list from task id to record, and each manager operation
becomes a pure function threading the store explicitly.  Fallible operations
return the (possibly unchanged) store together with an `Except` value.
-/

set_option autoImplicit false

namespace AgentJobs

/--
Workflow status values used across the repository (manager, storage, API
routes and tests).  Note: the enum in `models.py` itself declares only seven
members; the `draft` and `ready` members are referenced throughout
`manager.py`, `storage.py` and the test suite and are listed by the spec, so
the full nine-member set is used for the embedding of those callers.
Modelled from the spec: the `draft` and `ready` members missing from
`models.py`.
-/
inductive TaskStatus where
  | draft
  | planned
  | ready
  | in_progress
  | blocked
  | waiting_for_human
  | under_review
  | completed
  | archived
deriving Repr, DecidableEq

/-- String value of each status (the Python enum's `.value`). -/
def statusValue : TaskStatus → String
  | .draft => "draft"
  | .planned => "planned"
  | .ready => "ready"
  | .in_progress => "in_progress"
  | .blocked => "blocked"
  | .waiting_for_human => "waiting_for_human"
  | .under_review => "under_review"
  | .completed => "completed"
  | .archived => "archived"

/--
The literal member values of the `TaskStatus` enum as declared in
`models.py` lines 12-21 (seven members).  A string is accepted as a task
status at construction time exactly when it is in this list (pydantic enum
coercion rejects everything else).
-/
def modelsTaskStatusValues : List String :=
  ["planned", "in_progress", "blocked", "waiting_for_human",
   "under_review", "completed", "archived"]

/-- The nine status values the specification enumerates for `status`. -/
def specTaskStatusValues : List String :=
  ["draft", "planned", "ready", "in_progress", "blocked",
   "waiting_for_human", "under_review", "completed", "archived"]

/-- Priority levels (`models.py` `Priority`). -/
inductive Priority where
  | low
  | medium
  | high
  | critical
deriving Repr, DecidableEq

/-- Numeric ordering for priority comparisons (`Task.priority_rank`). -/
def priorityRank : Priority → Nat
  | .critical => 0
  | .high => 1
  | .medium => 2
  | .low => 3

/-- Discrete phase within a task roadmap (`models.py` `Phase`). -/
structure Phase where
  id : String
  title : String
  status : TaskStatus
  notes : Option String
  completed_at : Option Nat
deriving Repr, DecidableEq

/-- Success criterion tracked per task (`models.py` `SuccessCriterion`). -/
structure SuccessCriterion where
  id : String
  description : String
  status : String
deriving Repr, DecidableEq

/-- Individual prompt entry (`models.py` `Prompt`). -/
structure Prompt where
  timestamp : Nat
  author : String
  prompt_file : Option String
  content : Option String
  context : Option String
deriving Repr, DecidableEq

/-- Prompt collection for a task (`models.py` `Prompts`). -/
structure Prompts where
  starter : String
  followups : List Prompt
deriving Repr, DecidableEq

/-- Chronological status update entry (`models.py` `StatusUpdate`). -/
structure StatusUpdate where
  timestamp : Nat
  author : String
  status : TaskStatus
  summary : String
  details : Option String
deriving Repr, DecidableEq

/-- Deliverable artifact (`models.py` `Deliverable`). -/
structure Deliverable where
  path : String
  status : String
  description : Option String
deriving Repr, DecidableEq

/-- Relationship metadata between tasks (`models.py` `Dependency`). -/
structure Dependency where
  task_id : String
  type : String
  status : Option String
  note : Option String
deriving Repr, DecidableEq

/-- External resource reference (`models.py` `ExternalLink`). -/
structure ExternalLink where
  url : String
  title : String
deriving Repr, DecidableEq

/-- Issue tracked against a task (`models.py` `Issue`). -/
structure Issue where
  id : String
  title : String
  status : String
  resolution : Option String
deriving Repr, DecidableEq

/-- Branch lifecycle metadata (`models.py` `Branch`). -/
structure Branch where
  name : String
  status : String
  merged_at : Option Nat
deriving Repr, DecidableEq

/-- Primary task record (`models.py` `Task`). -/
structure Task where
  id : String
  title : String
  created : Nat
  updated : Nat
  status : TaskStatus
  priority : Priority
  category : String
  assigned_to : Option String
  estimated_effort : Option String
  human_summary : Option String
  description : String
  phases : List Phase
  success_criteria : List SuccessCriterion
  prompts : Prompts
  status_updates : List StatusUpdate
  deliverables : List Deliverable
  dependencies : List Dependency
  external_links : List ExternalLink
  issues : List Issue
  tags : List String
  branches : List Branch
deriving Repr, DecidableEq

/--
The on-disk task store: one record per task id (`TaskStorage` keeps one YAML
file per task, keyed by id).  Serialization round-trips all fields, so the
store is modelled directly as an association list from id to record.
-/
def Store := List (String × Task)

instance : DecidableEq Store := by
  unfold Store
  infer_instance

/-- Load a task by id (`TaskStorage.load_task`): absent when no record. -/
def load_task (s : Store) (task_id : String) : Option Task :=
  match s with
  | [] => none
  | (k, v) :: rest => if k = task_id then some v else load_task rest task_id

/-- Write the record stored under an id, keeping other entries unchanged. -/
def storePut (s : Store) (task_id : String) (t : Task) : Store :=
  match s with
  | [] => [(task_id, t)]
  | (k, v) :: rest =>
      if k = task_id then (k, t) :: rest else (k, v) :: storePut rest task_id t

/--
Save a task (`TaskStorage.save_task`): stamps `updated` to the current time,
overwrites any existing record under the task's id, and returns the new store
together with the persisted record.
-/
def save_task (s : Store) (now : Nat) (t : Task) : Store × Task :=
  let saved := { t with updated := now }
  (storePut s t.id saved, saved)

/-- Event metadata: the Python `dict` passed to `fire_event`, as key/value pairs. -/
def Metadata := List (String × String)

instance : DecidableEq Metadata := by
  unfold Metadata
  infer_instance

/-- Dict update of a single key: any existing binding is replaced by the new value. -/
def setKey (md : Metadata) (k v : String) : Metadata :=
  md.filter (fun kv => decide (kv.1 ≠ k)) ++ [(k, v)]

/-- Look up a key in event metadata (first binding wins, as in a dict). -/
def lookupKey (md : Metadata) (k : String) : Option String :=
  match md with
  | [] => none
  | kv :: rest => if kv.1 = k then some kv.2 else lookupKey rest k

/--
One observable webhook firing: `WebhookManager.fire_event` is modelled by the
event name and metadata it would deliver to the subscribed endpoints.
-/
structure FiredEvent where
  name : String
  metadata : Metadata
deriving DecidableEq

/--
Update a task status (`TaskManager.update_status`): loads the task (raising a
not-found error when the id is unknown, leaving the store untouched), captures
the previous status, sets the new status, appends a `StatusUpdate` entry,
persists, and — when a webhook manager is configured (`cfg`) — fires
`task.status_changed` with `triggered_by` and `previous_status` added to the
caller metadata, plus `task.completed` when the new status is completed.
-/
def update_status (s : Store) (cfg : Bool) (now : Nat) (task_id : String)
    (status : TaskStatus) (author summary : String) (details : Option String)
    (metadata : Metadata) : Store × List FiredEvent × Except String Task :=
  match load_task s task_id with
  | none => (s, [], .error ("Task '" ++ task_id ++ "' not found."))
  | some task =>
      let previous_status := task.status
      let task :=
        { task with
            status := status
            status_updates := task.status_updates ++
              [{ timestamp := now, author := author, status := status,
                 summary := summary, details := details }] }
      let res := save_task s now task
      let events :=
        if cfg then
          let md := setKey (setKey metadata "triggered_by" author)
            "previous_status" (statusValue previous_status)
          { name := "task.status_changed", metadata := md } ::
            (if status = .completed then
              [{ name := "task.completed", metadata := md }] else [])
        else []
      (res.1, events, .ok res.2)

/-- Lexicographic strict order on the sort key of `get_next_task`: priority rank
ascending, ties broken by larger (more recent) `updated`. -/
def betterThan (a b : Task) : Bool :=
  decide (priorityRank a.priority < priorityRank b.priority) ||
    (decide (priorityRank a.priority = priorityRank b.priority) &&
      decide (b.updated < a.updated))

/-- Head of the stable sort by the `get_next_task` key: fold that replaces the
current best only on a strictly better key, so the earliest listed task wins
ties. -/
def selectBest (c : Task) (cs : List Task) : Task :=
  cs.foldl (fun best t => if betterThan t best then t else best) c

/--
Select the next available task (`TaskManager.get_next_task`): filters the
store listing to `ready` tasks, optionally narrows by priority, and returns
the head of the list sorted by (priority rank, descending `updated`).
-/
def get_next_task (tasks : List Task) (priority : Option Priority) : Option Task :=
  let candidates := tasks.filter (fun t => decide (t.status = TaskStatus.ready))
  let candidates :=
    match priority with
    | some p => candidates.filter (fun t => decide (t.priority = p))
    | none => candidates
  match candidates with
  | [] => none
  | c :: cs => some (selectBest c cs)

/--
Replacement payload for `TaskManager.replace_task`: the keyword arguments the
caller may supply, one optional entry per task field (`updated` included, as
Python callers may pass it; `save_task` restamps it regardless).
-/
structure TaskPayload where
  id : Option String := none
  title : Option String := none
  created : Option Nat := none
  updated : Option Nat := none
  status : Option TaskStatus := none
  priority : Option Priority := none
  category : Option String := none
  assigned_to : Option (Option String) := none
  estimated_effort : Option (Option String) := none
  human_summary : Option (Option String) := none
  description : Option String := none
  phases : Option (List Phase) := none
  success_criteria : Option (List SuccessCriterion) := none
  prompts : Option Prompts := none
  status_updates : Option (List StatusUpdate) := none
  deliverables : Option (List Deliverable) := none
  dependencies : Option (List Dependency) := none
  external_links : Option (List ExternalLink) := none
  issues : Option (List Issue) := none
  tags : Option (List String) := none
  branches : Option (List Branch) := none
deriving DecidableEq

/-- Python `payload = existing.model_dump(); payload.update(replacement)`:
every supplied payload entry overwrites the existing field, every omitted
entry keeps the existing value. -/
def applyPayload (t : Task) (p : TaskPayload) : Task :=
  { id := p.id.getD t.id
    title := p.title.getD t.title
    created := p.created.getD t.created
    updated := p.updated.getD t.updated
    status := p.status.getD t.status
    priority := p.priority.getD t.priority
    category := p.category.getD t.category
    assigned_to := p.assigned_to.getD t.assigned_to
    estimated_effort := p.estimated_effort.getD t.estimated_effort
    human_summary := p.human_summary.getD t.human_summary
    description := p.description.getD t.description
    phases := p.phases.getD t.phases
    success_criteria := p.success_criteria.getD t.success_criteria
    prompts := p.prompts.getD t.prompts
    status_updates := p.status_updates.getD t.status_updates
    deliverables := p.deliverables.getD t.deliverables
    dependencies := p.dependencies.getD t.dependencies
    external_links := p.external_links.getD t.external_links
    issues := p.issues.getD t.issues
    tags := p.tags.getD t.tags
    branches := p.branches.getD t.branches }

/--
Replace a task (`TaskManager.replace_task`): dumps the existing record,
applies the replacement payload on top, forces `id` back to the requested id,
and saves.  The Python `payload.setdefault(...)` calls (for `created` and the
nested collections) are no-ops because the full dump already contains every
key, so a payload-supplied `created` takes effect.
-/
def replace_task (s : Store) (now : Nat) (task_id : String) (p : TaskPayload) :
    Store × Except String Task :=
  match load_task s task_id with
  | none => (s, .error ("Task '" ++ task_id ++ "' not found."))
  | some existing =>
      let merged := applyPayload existing p
      let task := { merged with id := task_id }
      let res := save_task s now task
      (res.1, .ok res.2)

/-- First deliverable whose path matches is set to completed (the Python
`for ... break` loop); absent when no deliverable matches. -/
def markFirstDeliverable (path : String) :
    List Deliverable → Option (List Deliverable)
  | [] => none
  | d :: rest =>
      if d.path = path then some ({ d with status := "completed" } :: rest)
      else (markFirstDeliverable path rest).map (fun ds => d :: ds)

/--
Mark a deliverable completed (`TaskManager.mark_deliverable_complete`): loads
the task, sets the first deliverable with the given path to completed and
saves; raises a not-found error — before any write — when no deliverable
matches the path.
-/
def mark_deliverable_complete (s : Store) (now : Nat) (task_id path : String) :
    Store × Except String Task :=
  match load_task s task_id with
  | none => (s, .error ("Task '" ++ task_id ++ "' not found."))
  | some task =>
      match markFirstDeliverable path task.deliverables with
      | none =>
          (s, .error ("Deliverable '" ++ path ++ "' not found for task '" ++
            task_id ++ "'."))
      | some ds =>
          let res := save_task s now { task with deliverables := ds }
          (res.1, .ok res.2)

/-- Substring test on character lists: Python `needle in hay`. -/
def infixCheck (needle : List Char) : List Char → Bool
  | [] => needle.isEmpty
  | a :: rest => needle.isPrefixOf (a :: rest) || infixCheck needle rest

/-- Python `sub in hay` on strings. -/
def strContains (hay sub : String) : Bool :=
  infixCheck sub.toList hay.toList

/-- Python `str.lower()`, modelled per character (the ASCII case mapping of
`Char.toLower`; the repository's fields and queries are ASCII). -/
def strToLower (s : String) : String :=
  String.mk (s.toList.map Char.toLower)

/-- Lowered haystacks scanned by `TaskStorage.search_tasks`: title, human
summary, description, and space-joined tags; an absent optional field is
scanned as the empty string (`haystack or ""`). -/
def searchMatch (query_lower : String) (t : Task) : Bool :=
  ([some t.title, t.human_summary, some t.description,
    some (String.intercalate " " t.tags)].map
      (fun h => strToLower (h.getD ""))).any
    (fun h => strContains h query_lower)

/--
Full-text search (`TaskStorage.search_tasks`): lowercases the query and keeps,
in store listing order, the tasks with at least one matching haystack.
-/
def search_tasks (tasks : List Task) (query : String) : List Task :=
  tasks.filter (searchMatch (strToLower query))

/-- Digit-string check (nonempty, ASCII digits only). -/
def isDigits (cs : List Char) : Bool :=
  !cs.isEmpty && cs.all (fun c => c.isDigit)

/-- Value of a digit string. -/
def digitsToNat (cs : List Char) : Nat :=
  cs.foldl (fun a c => a * 10 + (c.toNat - 48)) 0

/--
Python `int(str)` on the strings relevant here: an optional single sign
followed by decimal digits.  (Python `int` additionally strips whitespace and
accepts underscore group separators; no filename in the `task-NNN` naming
scheme contains those, and the embedding treats them as non-numeric.)
-/
def pyInt (str : String) : Option Int :=
  match str.toList with
  | '-' :: rest => if isDigits rest then some (-(digitsToNat rest : Int)) else none
  | '+' :: rest => if isDigits rest then some ((digitsToNat rest : Int)) else none
  | cs => if isDigits cs then some ((digitsToNat cs : Int)) else none

/--
Number extracted from one stored filename by `TaskStorage.generate_task_id`:
the glob `task-*.yaml` keeps files with that prefix and suffix, the stem is
split at the first dash (which sits right after `task`), and the remainder is
parsed with `int(...)`; parse failures are skipped.
-/
def taskFileNumber (file : String) : Option Int :=
  let cs := file.toList
  if "task-".toList.isPrefixOf cs && ".yaml".toList.isSuffixOf cs then
    pyInt (String.mk ((cs.drop 5).take (cs.length - 10)))
  else none

/-- Zero-pad a number to (at least) three digits: Python `f"{n:03d}"` for
nonnegative `n`. -/
def pad3 (n : Nat) : String :=
  if n < 10 then "00" ++ toString n
  else if n < 100 then "0" ++ toString n
  else toString n

/-- The scan loop of `generate_task_id`: running maximum of the parsed file
numbers over the stored filenames. -/
def highestTaskNumber (files : List String) (acc : Int) : Int :=
  match files with
  | [] => acc
  | f :: rest =>
      highestTaskNumber rest
        (match taskFileNumber f with
         | some n => max acc n
         | none => acc)

/--
Generate the next task id (`TaskStorage.generate_task_id`): scans the stored
filenames for the highest parsed number, starting from 0, and returns `task-`
followed by the successor zero-padded to three digits.
-/
def generate_task_id (files : List String) : String :=
  "task-" ++ pad3 (highestTaskNumber files 0 + 1).toNat

/--
Webhook subscription entity.  Modelled from the spec: the `Webhook` pydantic
model is imported from `models.py` by `storage.py` and `webhooks.py` but is
missing from that file; its fields follow the spec's webhook entity (id, url,
events, secret, active flag, created timestamp, last-triggered bookkeeping)
and the constructor call in `WebhookStorage.create_webhook`.
-/
structure Webhook where
  id : String
  url : String
  events : List String
  secret : String
  active : Bool
  created : Nat
  last_triggered : Option Nat
deriving Repr, DecidableEq

/--
Save or update a webhook (`WebhookStorage.save_webhook`): drops every stored
entry carrying the webhook's id, then appends the webhook, and writes the
resulting list back.
-/
def save_webhook (ws : List Webhook) (w : Webhook) : List Webhook :=
  ws.filter (fun x => decide (x.id ≠ w.id)) ++ [w]

/-- Candidate predicate of the next-task policy as the spec words it: status
is exactly `ready`, narrowed to the given priority when one is supplied. -/
def isCandidate (priority : Option Priority) (t : Task) : Bool :=
  decide (t.status = TaskStatus.ready) &&
    (match priority with
     | some p => decide (t.priority = p)
     | none => true)

/-- Search predicate as the spec words it: the lowercased query is a substring
of the lowercased title, human summary, description, or space-joined tags,
with an absent optional field treated as non-matching. -/
def specMatches (query : String) (t : Task) : Bool :=
  strContains (strToLower t.title) (strToLower query) ||
    (match t.human_summary with
     | some hs => strContains (strToLower hs) (strToLower query)
     | none => false) ||
    strContains (strToLower t.description) (strToLower query) ||
    strContains (strToLower (String.intercalate " " t.tags)) (strToLower query)

/-- Number of a filename conforming to the `task-<number>` naming scheme
(`task-` prefix, `.yaml` suffix, nonnegative number in between); absent for
non-conforming filenames. -/
def schemeNumber (file : String) : Option Nat :=
  match taskFileNumber file with
  | some n => if 0 ≤ n then some n.toNat else none
  | none => none

/-- Running maximum of the scheme numbers over a list of filenames. -/
def schemeFold (files : List String) (acc : Nat) : Nat :=
  match files with
  | [] => acc
  | f :: rest =>
      schemeFold rest
        (match schemeNumber f with
         | some n => max acc n
         | none => acc)

/-- Highest scheme number among a list of filenames (0 when none conforms). -/
def schemeMax (files : List String) : Nat :=
  schemeFold files 0

/--
C1: the spec enumerates nine task status values {draft, planned, ready,
in_progress, blocked, waiting_for_human, under_review, completed, archived},
all accepted at construction; the `TaskStatus` enum declared in `models.py`
has only seven members, so `draft` and `ready` are rejected at construction
time while the remaining seven are accepted.  (The rest of the repository —
`manager.py` defaults new tasks to `TaskStatus.DRAFT` and filters on
`TaskStatus.READY`, and the API tests construct tasks with
`TaskStatus.READY` — relies on the two missing members, so the enum
contradicts its own callers and tests.)
-/
theorem C1_status_enum_code_eval :
    modelsTaskStatusValues.contains "ready" = false ∧
    modelsTaskStatusValues.contains "draft" = false ∧
    specTaskStatusValues.filter (fun v => modelsTaskStatusValues.contains v) =
      modelsTaskStatusValues := by decide

/--
C3: for every store and every task id with no stored record, `update_status`
fails with the not-found error carrying the id, fires no events, and returns
the store completely unchanged.
-/
theorem C3_update_status_unknown_id (s : Store) (cfg : Bool) (now : Nat)
    (task_id : String) (st : TaskStatus) (author summary : String)
    (details : Option String) (md : Metadata)
    (h : load_task s task_id = none) :
    update_status s cfg now task_id st author summary details md =
      (s, [], .error ("Task '" ++ task_id ++ "' not found.")) := by
  unfold update_status
  rw [h]

/-- Concrete instantiation of `C3_update_status_unknown_id` on an empty store. -/
theorem C3_update_status_unknown_id_witness :
    update_status [] true 7 "task-042" .completed "alice" "done" none [] =
      ([], [], .error ("Task 'task-042' not found.")) :=
  C3_update_status_unknown_id [] true 7 "task-042" .completed "alice" "done"
    none [] rfl

/-- Sample task used to instantiate the store-level theorems. -/
def demoTask : Task :=
  { id := "task-001"
    title := "Write docs"
    created := 3
    updated := 5
    status := .ready
    priority := .medium
    category := "general"
    assigned_to := none
    estimated_effort := none
    human_summary := some "Document the API"
    description := "Write the documentation."
    phases := []
    success_criteria := []
    prompts := { starter := "Write the documentation.", followups := [] }
    status_updates := []
    deliverables := [{ path := "docs/api.md", status := "pending",
                       description := none }]
    dependencies := []
    external_links := []
    issues := []
    tags := ["docs"]
    branches := [] }

/-- Sample one-task store. -/
def demoStore : Store := [("task-001", demoTask)]

/-- Loading right after writing a record under an id returns that record. -/
theorem load_storePut (s : Store) (task_id : String) (t : Task) :
    load_task (storePut s task_id t) task_id = some t := by
  induction s with
  | nil => simp [storePut, load_task]
  | cons kv rest ih =>
      obtain ⟨k, v⟩ := kv
      by_cases hk : k = task_id
      · simp [storePut, load_task, hk]
      · simp [storePut, load_task, hk, ih]

/--
C5: saving a task and loading it back by its id yields exactly the persisted
record; that record agrees with the saved one on every field except
`updated`, which is stamped to the save time, and (under a monotonic clock,
i.e. the save time is not before the previous `updated`) never decreases.
-/
theorem C5_save_load_roundtrip (s : Store) (now : Nat) (t : Task) :
    load_task (save_task s now t).1 t.id = some (save_task s now t).2 ∧
    (save_task s now t).2.updated = now ∧
    (save_task s now t).2.id = t.id ∧
    (save_task s now t).2.title = t.title ∧
    (save_task s now t).2.created = t.created ∧
    (save_task s now t).2.status = t.status ∧
    (save_task s now t).2.priority = t.priority ∧
    (save_task s now t).2.category = t.category ∧
    (save_task s now t).2.assigned_to = t.assigned_to ∧
    (save_task s now t).2.estimated_effort = t.estimated_effort ∧
    (save_task s now t).2.human_summary = t.human_summary ∧
    (save_task s now t).2.description = t.description ∧
    (save_task s now t).2.phases = t.phases ∧
    (save_task s now t).2.success_criteria = t.success_criteria ∧
    (save_task s now t).2.prompts = t.prompts ∧
    (save_task s now t).2.status_updates = t.status_updates ∧
    (save_task s now t).2.deliverables = t.deliverables ∧
    (save_task s now t).2.dependencies = t.dependencies ∧
    (save_task s now t).2.external_links = t.external_links ∧
    (save_task s now t).2.issues = t.issues ∧
    (save_task s now t).2.tags = t.tags ∧
    (save_task s now t).2.branches = t.branches ∧
    (t.updated ≤ now → t.updated ≤ (save_task s now t).2.updated) :=
  ⟨load_storePut s t.id { t with updated := now },
    rfl, rfl, rfl, rfl, rfl, rfl, rfl, rfl, rfl, rfl, rfl, rfl, rfl, rfl,
    rfl, rfl, rfl, rfl, rfl, rfl, rfl, fun h => h⟩

/-- Concrete instantiation of `C5_save_load_roundtrip` with the monotone-clock
hypothesis discharged. -/
theorem C5_save_load_roundtrip_witness :
    load_task (save_task demoStore 9 demoTask).1 demoTask.id =
      some (save_task demoStore 9 demoTask).2 ∧
    demoTask.updated ≤ (save_task demoStore 9 demoTask).2.updated := by
  have h := C5_save_load_roundtrip demoStore 9 demoTask
  exact ⟨h.1,
    h.2.2.2.2.2.2.2.2.2.2.2.2.2.2.2.2.2.2.2.2.2.2 (by decide)⟩

/-- Created-timestamp projection of a fallible task result. -/
def resultCreated (r : Except String Task) : Option Nat :=
  match r with
  | .ok t => some t.created
  | .error _ => none

/-- Replacement payload supplying only a new `created` timestamp. -/
def createdPayload : TaskPayload := { created := some 99 }

/--
C4 counterexample: the stored record `task-001` has `created = 3`, yet
`replace_task` with a payload supplying `created = 99` returns a task whose
`created` is 99 — the payload's value takes effect, so `created` is not
preserved regardless of the payload (`payload.setdefault("created", ...)`
never fires because the full dump already contains the key).
-/
theorem C4_counterexample :
    (load_task demoStore "task-001").map Task.created = some 3 ∧
    resultCreated (replace_task demoStore 9 "task-001" createdPayload).2 =
      some 99 := by decide

/--
C4 (amended): for every existing task, `replace_task` forces `id` to the
requested id regardless of the payload and stamps `updated` to the save time;
`created` and every other field take the payload's value when supplied and
fall back to the existing record's value when omitted.
-/
theorem C4_replace_merge (s : Store) (now : Nat) (task_id : String)
    (p : TaskPayload) (existing : Task)
    (h : load_task s task_id = some existing) :
    ∃ saved, (replace_task s now task_id p).2 = .ok saved ∧
      (replace_task s now task_id p).1 = storePut s task_id saved ∧
      saved.id = task_id ∧
      saved.created = p.created.getD existing.created ∧
      saved.updated = now ∧
      saved.title = p.title.getD existing.title ∧
      saved.status = p.status.getD existing.status ∧
      saved.priority = p.priority.getD existing.priority ∧
      saved.category = p.category.getD existing.category ∧
      saved.assigned_to = p.assigned_to.getD existing.assigned_to ∧
      saved.estimated_effort = p.estimated_effort.getD existing.estimated_effort ∧
      saved.human_summary = p.human_summary.getD existing.human_summary ∧
      saved.description = p.description.getD existing.description ∧
      saved.phases = p.phases.getD existing.phases ∧
      saved.success_criteria = p.success_criteria.getD existing.success_criteria ∧
      saved.prompts = p.prompts.getD existing.prompts ∧
      saved.status_updates = p.status_updates.getD existing.status_updates ∧
      saved.deliverables = p.deliverables.getD existing.deliverables ∧
      saved.dependencies = p.dependencies.getD existing.dependencies ∧
      saved.external_links = p.external_links.getD existing.external_links ∧
      saved.issues = p.issues.getD existing.issues ∧
      saved.tags = p.tags.getD existing.tags ∧
      saved.branches = p.branches.getD existing.branches := by
  unfold replace_task
  rw [h]
  exact ⟨_, rfl, rfl, rfl, rfl, rfl, rfl, rfl, rfl, rfl, rfl, rfl, rfl, rfl,
    rfl, rfl, rfl, rfl, rfl, rfl, rfl, rfl, rfl, rfl⟩

/-- Concrete instantiation of `C4_replace_merge`: an omitted `created` falls
back to the stored value. -/
theorem C4_replace_merge_witness :
    resultCreated (replace_task demoStore 9 "task-001"
      { title := some "Updated" }).2 = some 3 := by
  obtain ⟨saved, h1, -, -, h4, -⟩ :=
    C4_replace_merge demoStore 9 "task-001" { title := some "Updated" }
      demoTask rfl
  rw [resultCreated.eq_def, h1]
  simp only [h4]
  rfl

/-- When no deliverable carries the path, the first-match scan finds nothing. -/
theorem markFirst_none (path : String) (ds : List Deliverable)
    (h : ∀ d ∈ ds, d.path ≠ path) : markFirstDeliverable path ds = none := by
  induction ds with
  | nil => rfl
  | cons d rest ih =>
      have hd : d.path ≠ path := h d (List.mem_cons_self d rest)
      rw [markFirstDeliverable, if_neg hd,
        ih (fun x hx => h x (List.mem_cons_of_mem d hx))]
      rfl

/-- The first deliverable carrying the path is the one set to completed. -/
theorem markFirst_found (path : String) (pre : List Deliverable)
    (d : Deliverable) (post : List Deliverable)
    (hpre : ∀ x ∈ pre, x.path ≠ path) (hd : d.path = path) :
    markFirstDeliverable path (pre ++ d :: post) =
      some (pre ++ { d with status := "completed" } :: post) := by
  induction pre with
  | nil => simp [markFirstDeliverable, hd]
  | cons x rest ih =>
      have hx : x.path ≠ path := hpre x (List.mem_cons_self x rest)
      rw [List.cons_append, markFirstDeliverable, if_neg hx,
        ih (fun y hy => hpre y (List.mem_cons_of_mem x hy))]
      rfl

/--
C7: for every stored task, `mark_deliverable_complete` fails with the
not-found error and leaves the store unchanged when no deliverable carries the
given path, and otherwise sets the first deliverable carrying the path to
completed and persists the task.
-/
theorem C7_mark_deliverable (s : Store) (now : Nat) (task_id path : String)
    (task : Task) (h : load_task s task_id = some task) :
    ((∀ d ∈ task.deliverables, d.path ≠ path) →
      mark_deliverable_complete s now task_id path =
        (s, .error ("Deliverable '" ++ path ++ "' not found for task '" ++
          task_id ++ "'."))) ∧
    (∀ pre d post, task.deliverables = pre ++ d :: post →
      (∀ x ∈ pre, x.path ≠ path) → d.path = path →
      mark_deliverable_complete s now task_id path =
        (storePut s task.id
          { task with
              updated := now
              deliverables := pre ++ { d with status := "completed" } :: post },
         .ok { task with
                 updated := now
                 deliverables :=
                   pre ++ { d with status := "completed" } :: post })) := by
  constructor
  · intro hnone
    simp only [mark_deliverable_complete, h,
      markFirst_none path task.deliverables hnone]
  · intro pre d post hsplit hpre hd
    have hm : markFirstDeliverable path task.deliverables =
        some (pre ++ { d with status := "completed" } :: post) := by
      rw [hsplit]
      exact markFirst_found path pre d post hpre hd
    simp only [mark_deliverable_complete, h, hm, save_task]

/-- Concrete instantiation of `C7_mark_deliverable`: an unmatched path yields
the not-found error and an untouched store. -/
theorem C7_mark_deliverable_witness :
    mark_deliverable_complete demoStore 9 "task-001" "missing.md" =
      (demoStore, .error ("Deliverable '" ++ "missing.md" ++
        "' not found for task '" ++ "task-001" ++ "'.")) :=
  (C7_mark_deliverable demoStore 9 "task-001" "missing.md" demoTask rfl).1
    (by decide)

/-- Looking up a freshly dict-updated key yields the new value. -/
theorem lookup_setKey_same (md : Metadata) (k v : String) :
    lookupKey (setKey md k v) k = some v := by
  induction md with
  | nil => simp [setKey, lookupKey]
  | cons kv rest ih =>
      by_cases hk : kv.1 = k
      · simpa [setKey, List.filter_cons, hk] using ih
      · simpa [setKey, List.filter_cons, hk, lookupKey] using ih

/-- Dict-updating one key leaves lookups of a different key unchanged. -/
theorem lookup_setKey_other (md : Metadata) (k k2 v : String) (hne : k2 ≠ k) :
    lookupKey (setKey md k v) k2 = lookupKey md k2 := by
  have hkk2 : ¬ k = k2 := fun hcontra => hne hcontra.symm
  induction md with
  | nil => simp [setKey, lookupKey, hkk2]
  | cons kv rest ih =>
      by_cases hk : kv.1 = k
      · have hk2 : ¬ kv.1 = k2 := fun hcontra => hne (hcontra ▸ hk)
        simp only [setKey, List.filter_cons] at ih ⊢
        simpa [hk, lookupKey, hk2, hkk2] using ih
      · by_cases hk2 : kv.1 = k2
        · simp [setKey, List.filter_cons, hk, lookupKey, hk2, hne]
        · simp only [setKey, List.filter_cons] at ih ⊢
          simpa [hk, lookupKey, hk2] using ih

/--
C8: for every successful `update_status` call with a webhook manager
configured, exactly one `task.status_changed` event is fired, followed by a
`task.completed` event exactly when the new status is completed, and every
fired event's metadata carries `triggered_by = author` and
`previous_status` = the status value held before the call.
-/
theorem C8_update_status_events (s : Store) (now : Nat) (task_id : String)
    (st : TaskStatus) (author summary : String) (details : Option String)
    (md : Metadata) (task : Task) (h : load_task s task_id = some task) :
    ((update_status s true now task_id st author summary details md).2.1.map
        FiredEvent.name =
      "task.status_changed" ::
        (if st = TaskStatus.completed then ["task.completed"] else [])) ∧
    (∀ e ∈ (update_status s true now task_id st author summary details md).2.1,
      lookupKey e.metadata "triggered_by" = some author ∧
      lookupKey e.metadata "previous_status" =
        some (statusValue task.status)) := by
  have hmd1 : lookupKey (setKey (setKey md "triggered_by" author)
      "previous_status" (statusValue task.status)) "triggered_by" =
      some author := by
    rw [lookup_setKey_other _ _ _ _ (by decide)]
    exact lookup_setKey_same md "triggered_by" author
  have hmd2 : lookupKey (setKey (setKey md "triggered_by" author)
      "previous_status" (statusValue task.status)) "previous_status" =
      some (statusValue task.status) :=
    lookup_setKey_same _ _ _
  by_cases hc : st = TaskStatus.completed
  · constructor
    · simp [update_status, h, hc]
    · intro e he
      simp [update_status, h, hc] at he
      rcases he with he | he <;> subst he <;> exact ⟨hmd1, hmd2⟩
  · constructor
    · simp [update_status, h, hc]
    · intro e he
      simp [update_status, h, hc] at he
      subst he
      exact ⟨hmd1, hmd2⟩

/-- Concrete instantiation of `C8_update_status_events`: completing a task
fires the status-changed event and then the completed event. -/
theorem C8_update_status_events_witness :
    (update_status demoStore true 9 "task-001" TaskStatus.completed "alice"
        "done" none []).2.1.map FiredEvent.name =
      ["task.status_changed", "task.completed"] := by
  have h := C8_update_status_events demoStore 9 "task-001" TaskStatus.completed
    "alice" "done" none [] demoTask rfl
  simpa using h.1

/-- Characterization of the strict sort-key order. -/
theorem betterThan_iff (a b : Task) :
    betterThan a b = true ↔
      (priorityRank a.priority < priorityRank b.priority ∨
        (priorityRank a.priority = priorityRank b.priority ∧
          b.updated < a.updated)) := by
  simp [betterThan]

/-- The strict sort-key order is transitive. -/
theorem betterThan_trans (a b c : Task) (h1 : betterThan a b = true)
    (h2 : betterThan b c = true) : betterThan a c = true := by
  rw [betterThan_iff] at h1 h2 ⊢
  omega

/-- Key comparison with a non-better element transfers strictness. -/
theorem betterThan_negtrans (t c r : Task) (h1 : betterThan t c = false)
    (h2 : betterThan t r = true) : betterThan c r = true := by
  have h1n : ¬ (priorityRank t.priority < priorityRank c.priority ∨
      (priorityRank t.priority = priorityRank c.priority ∧
        c.updated < t.updated)) := by
    rw [← betterThan_iff]
    simp [h1]
  rw [betterThan_iff] at h2 ⊢
  omega

/-- The selected head is drawn from the candidates. -/
theorem selectBest_mem (cs : List Task) :
    ∀ c, selectBest c cs = c ∨ selectBest c cs ∈ cs := by
  induction cs with
  | nil =>
      intro c
      left
      rfl
  | cons t rest ih =>
      intro c
      have hstep : selectBest c (t :: rest) =
          selectBest (if betterThan t c then t else c) rest := by
        simp [selectBest, List.foldl_cons]
      rcases ih (if betterThan t c then t else c) with h | h
      · rw [hstep, h]
        by_cases hb : betterThan t c <;> simp [hb]
      · right
        rw [hstep]
        exact List.mem_cons_of_mem t h

/-- No candidate is strictly better than the selected head. -/
theorem selectBest_min (cs : List Task) :
    ∀ c u, (u = c ∨ u ∈ cs) → betterThan u (selectBest c cs) = false := by
  induction cs with
  | nil =>
      intro c u hu
      rcases hu with rfl | hu
      · simp [selectBest, betterThan]
      · cases hu
  | cons t rest ih =>
      intro c u hu
      have hstep : selectBest c (t :: rest) =
          selectBest (if betterThan t c then t else c) rest := by
        simp [selectBest, List.foldl_cons]
      rw [hstep]
      by_cases hb : betterThan t c
      · rw [if_pos hb]
        rcases hu with rfl | hu
        · by_cases hc : betterThan u (selectBest t rest)
          · have ht := betterThan_trans t u (selectBest t rest) hb hc
            rw [ih t t (Or.inl rfl)] at ht
            cases ht
          · simpa using hc
        · rcases List.mem_cons.mp hu with h | hu2
          · rw [h]
            exact ih t t (Or.inl rfl)
          · exact ih t u (Or.inr hu2)
      · rw [if_neg hb]
        rcases hu with h | hu
        · rw [h]
          exact ih c c (Or.inl rfl)
        · rcases List.mem_cons.mp hu with h | hu2
          · rw [h]
            by_cases hc : betterThan t (selectBest c rest)
            · have hcc := betterThan_negtrans t c (selectBest c rest)
                (by simpa using hb) hc
              rw [ih c c (Or.inl rfl)] at hcc
              cases hcc
            · simpa using hc
          · exact ih c u (Or.inr hu2)

/-- The next-task selection is the head of the stable sort of the spec's
candidate set. -/
theorem get_next_task_eq (tasks : List Task) (priority : Option Priority) :
    get_next_task tasks priority =
      (match tasks.filter (isCandidate priority) with
       | [] => none
       | c :: cs => some (selectBest c cs)) := by
  cases priority with
  | none =>
      have hcand : tasks.filter (fun t => decide (t.status = TaskStatus.ready))
          = tasks.filter (isCandidate none) := by
        apply List.filter_congr
        intro t _
        simp [isCandidate]
      show (match tasks.filter (fun t => decide (t.status = TaskStatus.ready))
          with
        | [] => none
        | c :: cs => some (selectBest c cs)) = _
      rw [hcand]
  | some p =>
      have hcand : (tasks.filter
            (fun t => decide (t.status = TaskStatus.ready))).filter
            (fun t => decide (t.priority = p))
          = tasks.filter (isCandidate (some p)) := by
        rw [List.filter_filter]
        apply List.filter_congr
        intro t _
        simp [isCandidate, Bool.and_comm]
      show (match (tasks.filter
            (fun t => decide (t.status = TaskStatus.ready))).filter
            (fun t => decide (t.priority = p)) with
        | [] => none
        | c :: cs => some (selectBest c cs)) = _
      rw [hcand]

/--
C2: `get_next_task` considers exactly the tasks whose status is `ready`
(narrowed to the given priority when one is supplied): it returns none exactly
when no candidate remains, and otherwise returns a candidate to which no other
candidate is strictly preferred under the key (priority rank ascending with
critical = 0, high = 1, medium = 2, low = 3; ties broken by most recent
`updated` first).
-/
theorem C2_get_next_task (tasks : List Task) (priority : Option Priority) :
    (get_next_task tasks priority = none ↔
      tasks.filter (isCandidate priority) = []) ∧
    (∀ t, get_next_task tasks priority = some t →
      t ∈ tasks.filter (isCandidate priority) ∧
      ∀ u ∈ tasks.filter (isCandidate priority), betterThan u t = false) := by
  have heq := get_next_task_eq tasks priority
  rcases hres : tasks.filter (isCandidate priority) with _ | ⟨c, cs⟩ <;>
    rw [hres] at heq
  · have heq2 : get_next_task tasks priority = none := heq
    rw [heq2]
    exact ⟨by simp, by simp⟩
  · have heq2 : get_next_task tasks priority = some (selectBest c cs) := heq
    rw [heq2]
    constructor
    · simp
    · intro t ht
      have ht2 : selectBest c cs = t := Option.some.inj ht
      constructor
      · rw [← ht2]
        rcases selectBest_mem cs c with h | h
        · rw [h]
          exact List.mem_cons_self c cs
        · exact List.mem_cons_of_mem c h
      · intro u hu
        rw [← ht2]
        exact selectBest_min cs c u (List.mem_cons.mp hu)

/-- Sample ready task with critical priority. -/
def readyCritical : Task :=
  { demoTask with id := "task-002", priority := .critical, updated := 4 }

/-- Sample ready task with high priority and a later update time. -/
def readyHigh : Task :=
  { demoTask with id := "task-003", priority := .high, updated := 10 }

/-- Sample planned (not ready) task with low priority. -/
def plannedLow : Task :=
  { demoTask with id := "task-004", priority := .low, status := .planned }

/-- Sample store listing for next-task selection. -/
def demoTaskList : List Task := [plannedLow, readyHigh, readyCritical]

/-- Concrete instantiation of `C2_get_next_task`: the critical ready task is
selected and no candidate beats it. -/
theorem C2_get_next_task_witness :
    readyCritical ∈ demoTaskList.filter (isCandidate none) ∧
      ∀ u ∈ demoTaskList.filter (isCandidate none),
        betterThan u readyCritical = false :=
  (C2_get_next_task demoTaskList none).2 readyCritical (by decide)

/-- With a nonnegative accumulator, the source scan computes exactly the
spec-side scheme maximum: negative parses are absorbed by the running maximum
and everything else agrees. -/
theorem highest_eq_scheme (files : List String) :
    ∀ acc : Int, 0 ≤ acc →
      highestTaskNumber files acc = ((schemeFold files acc.toNat : Nat) : Int) := by
  induction files with
  | nil =>
      intro acc hacc
      simp [highestTaskNumber, schemeFold, Int.toNat_of_nonneg hacc]
  | cons f rest ih =>
      intro acc hacc
      rcases htf : taskFileNumber f with _ | n
      · have hs : schemeNumber f = none := by simp [schemeNumber, htf]
        simp only [highestTaskNumber, schemeFold, htf, hs]
        exact ih acc hacc
      · by_cases hn : 0 ≤ n
        · have hs : schemeNumber f = some n.toNat := by
            simp [schemeNumber, htf, hn]
          simp only [highestTaskNumber, schemeFold, htf, hs]
          have hmax : (max acc n).toNat = max acc.toNat n.toNat := by omega
          rw [ih (max acc n) (le_trans hacc (le_max_left acc n)), hmax]
        · have hs : schemeNumber f = none := by simp [schemeNumber, htf, hn]
          have hmax : max acc n = acc := by omega
          simp only [highestTaskNumber, schemeFold, htf, hs, hmax]
          exact ih acc hacc

/-- The scheme scan result is at least its accumulator. -/
theorem schemeFold_le (files : List String) :
    ∀ acc, acc ≤ schemeFold files acc := by
  induction files with
  | nil =>
      intro acc
      simp [schemeFold]
  | cons f rest ih =>
      intro acc
      rcases hs : schemeNumber f with _ | n
      · simp only [schemeFold, hs]
        exact ih acc
      · simp only [schemeFold, hs]
        exact le_trans (le_max_left acc n) (ih (max acc n))

/-- Every conforming filename's number is bounded by the scheme scan result. -/
theorem schemeFold_mem (files : List String) :
    ∀ acc f n, f ∈ files → schemeNumber f = some n →
      n ≤ schemeFold files acc := by
  induction files with
  | nil =>
      intro acc f n hf
      cases hf
  | cons g rest ih =>
      intro acc f n hf hn
      rcases List.mem_cons.mp hf with h | hf2
      · rw [h] at hn
        simp only [schemeFold, hn]
        exact le_trans (le_max_right acc n) (schemeFold_le rest (max acc n))
      · rcases hs : schemeNumber g with _ | m <;> simp only [schemeFold, hs]
        · exact ih acc f n hf2 hn
        · exact ih (max acc m) f n hf2 hn

/--
C6: `generate_task_id` returns `task-` followed by N+1 zero-padded to three
digits, where N is the highest number among filenames conforming to the
`task-<number>` naming scheme (non-conforming filenames are ignored, and N is
0 on a store with no conforming file, so an empty store yields `task-001`);
every conforming number is strictly below N+1, so gaps are never reused.
-/
theorem C6_generate_task_id (files : List String) :
    generate_task_id files = "task-" ++ pad3 (schemeMax files + 1) ∧
    generate_task_id [] = "task-001" ∧
    (∀ f ∈ files, ∀ n, schemeNumber f = some n → n < schemeMax files + 1) := by
  refine ⟨?_, rfl, ?_⟩
  · unfold generate_task_id schemeMax
    rw [highest_eq_scheme files 0 le_rfl]
    rfl
  · intro f hf n hn
    have h := schemeFold_mem files 0 f n hf hn
    unfold schemeMax
    omega

/-- Sample store filenames: seven conforming task files plus an unrelated
YAML file. -/
def demoFiles : List String :=
  ["task-001.yaml", "task-002.yaml", "task-003.yaml", "task-004.yaml",
   "task-005.yaml", "task-006.yaml", "task-007.yaml", "notes.yaml"]

/-- Concrete instantiation of `C6_generate_task_id`: with files task-001
through task-007, the number 7 is not reused. -/
theorem C6_generate_task_id_witness :
    7 < schemeMax demoFiles + 1 :=
  (C6_generate_task_id demoFiles).2.2 "task-007.yaml" (by decide) 7 (by decide)

/-- The empty needle is an infix of every haystack. -/
theorem infixCheck_nil (l : List Char) : infixCheck [] l = true := by
  cases l <;> simp [infixCheck, List.isPrefixOf]

/--
C9: `search_tasks` returns exactly the tasks for which the lowercased query
is a substring of the lowercased title, human summary, description, or
space-joined tags (an absent optional field matching nothing), preserving the
store listing order.
-/
theorem C9_search_tasks (tasks : List Task) (query : String) :
    search_tasks tasks query = tasks.filter (specMatches query) := by
  unfold search_tasks
  apply List.filter_congr
  intro t _
  rcases hs : t.human_summary with _ | s
  · rcases hq : (strToLower query).toList with _ | ⟨qc, qrest⟩
    · have htitle : strContains (strToLower t.title) (strToLower query)
          = true := by
        unfold strContains
        rw [hq]
        exact infixCheck_nil _
      simp [searchMatch, specMatches, hs, htitle, Bool.or_assoc]
    · have hempty : strContains (strToLower "") (strToLower query)
          = false := by
        unfold strContains
        rw [hq]
        rfl
      simp [searchMatch, specMatches, hs, hempty, Bool.or_assoc]
  · simp [searchMatch, specMatches, hs, Bool.or_assoc]

/--
C10: after `save_webhook`, the stored list contains exactly one entry with
the saved webhook's id (the webhook itself), every entry with a different id
is exactly as before, and uniqueness of stored ids is preserved.
-/
theorem C10_save_webhook (ws : List Webhook) (w : Webhook) :
    (save_webhook ws w).filter (fun x => decide (x.id = w.id)) = [w] ∧
    (save_webhook ws w).filter (fun x => decide (x.id ≠ w.id)) =
      ws.filter (fun x => decide (x.id ≠ w.id)) ∧
    ((ws.map Webhook.id).Nodup → ((save_webhook ws w).map Webhook.id).Nodup) := by
  refine ⟨?_, ?_, ?_⟩
  · unfold save_webhook
    rw [List.filter_append, List.filter_filter]
    have h1 : ws.filter
        (fun a => decide (a.id = w.id) && decide (a.id ≠ w.id)) = [] := by
      apply List.filter_eq_nil_iff.mpr
      intro a _
      simp only [Bool.and_eq_true, decide_eq_true_eq]
      intro h
      exact h.2 h.1
    rw [h1]
    simp
  · unfold save_webhook
    rw [List.filter_append, List.filter_filter]
    simp
  · intro hnodup
    unfold save_webhook
    rw [List.map_append, List.nodup_append]
    refine ⟨hnodup.sublist ((List.filter_sublist ws).map Webhook.id),
      by simp, ?_⟩
    intro a ha hb
    simp only [List.map_cons, List.map_nil, List.mem_singleton] at hb
    simp only [List.mem_map, List.mem_filter] at ha
    obtain ⟨x, ⟨hxmem, hxne⟩, hxa⟩ := ha
    rw [decide_eq_true_iff] at hxne
    exact hxne (hxa.trans hb)

/-- Sample stored webhook. -/
def demoHook1 : Webhook :=
  { id := "wh_1", url := "http://example.com/a", events := ["task.completed"],
    secret := "s1", active := true, created := 1, last_triggered := none }

/-- Sample webhook being saved. -/
def demoHook2 : Webhook :=
  { id := "wh_2", url := "http://example.com/b",
    events := ["task.status_changed"], secret := "s2", active := true,
    created := 2, last_triggered := none }

/-- Concrete instantiation of `C10_save_webhook`: saving a second webhook
keeps stored ids unique. -/
theorem C10_save_webhook_witness :
    ((save_webhook [demoHook1] demoHook2).map Webhook.id).Nodup :=
  (C10_save_webhook [demoHook1] demoHook2).2.2 (by decide)

end AgentJobs
